import Mathlib

/-!
Shallow embedding of the locky multi-tenant identity platform core, translated
from the Go sources (`auth/tokens/service.go`, `auth/oauth/service.go`,
`auth/store/tenants_users.go`, `auth/tenant` host resolver, `auth/crypto/crypto.go`).

Modelling conventions:
* Go `time.Time` is an `Int` (nanoseconds since the epoch); `a.After(b)` is `a > b`.
* Go strings are Lean `String`s, except in the host-resolution and password modules,
  where character-level operations matter and Go strings are `List Char`.
* Database tables are lists of rows; GORM `First` with a predicate is `List.find?`,
  `Update` with a predicate is a `List.map` that rewrites the matching rows, and
  `Create` fails exactly on a primary-key collision.
* External cryptographic primitives (the SHA-256 token hash and `argon2.IDKey`)
  are function parameters of the operations that call them; random values drawn
  inside an operation (UUIDs, salts) are explicit arguments.
-/

set_option linter.unusedVariables false

namespace Locky

/-- Go `strings.Split(s, sep)` for a one-character separator: the list of
(possibly empty) runs of characters between occurrences of `sep`. -/
def splitOnChar (sep : Char) : List Char → List (List Char)
  | [] => [[]]
  | c :: rest =>
    if c = sep then [] :: splitOnChar sep rest
    else
      match splitOnChar sep rest with
      | [] => [[c]]
      | p :: ps => (c :: p) :: ps

/-! ### Password hashing (`auth/crypto/crypto.go`, `PasswordHasher`) -/

/-- Argon2id time parameter from `crypto.go`. -/
def argon2Time : Nat := 3

/-- Argon2id memory parameter (KiB) from `crypto.go`. -/
def argon2Memory : Nat := 64 * 1024

/-- Argon2id parallelism parameter from `crypto.go`. -/
def argon2Threads : Nat := 4

/-- Argon2id derived-key length from `crypto.go`. -/
def argon2KeyLen : Nat := 32

/-- Type of the external `argon2.IDKey` key-derivation function: arguments are
password, salt, time, memory, threads, key length; the result is the derived key
as a byte list. The library itself is outside the repository, so the services
take it as a parameter. -/
abbrev IDKeyFn := String → List Nat → Nat → Nat → Nat → Nat → List Nat

/-- Alphabet of Go `base64.RawStdEncoding`. -/
def b64Alphabet : List Char :=
  "ABCDEFGHIJKLMNOPQRSTUVWXYZabcdefghijklmnopqrstuvwxyz0123456789+/".toList

/-- Character for a 6-bit group. -/
def b64Char (n : Nat) : Char := b64Alphabet.getD n 'A'

/-- Index of a character in the base64 alphabet, `none` when the character is
not in the alphabet (Go reports a `CorruptInputError`). -/
def b64Index (c : Char) : Option Nat :=
  if c ∈ b64Alphabet then some (b64Alphabet.indexOf c) else none

/-- Go `base64.RawStdEncoding.EncodeToString` on a byte list: three bytes become
four characters; a trailing byte becomes two characters and two trailing bytes
become three (no padding). -/
def b64Encode : List Nat → List Char
  | [] => []
  | [b0] => [b64Char (b0 / 4), b64Char (b0 % 4 * 16)]
  | [b0, b1] =>
    [b64Char (b0 / 4), b64Char (b0 % 4 * 16 + b1 / 16), b64Char (b1 % 16 * 4)]
  | b0 :: b1 :: b2 :: rest =>
    b64Char (b0 / 4) :: b64Char (b0 % 4 * 16 + b1 / 16) ::
      b64Char (b1 % 16 * 4 + b2 / 64) :: b64Char (b2 % 64) :: b64Encode rest

/-- Go `base64.RawStdEncoding.DecodeString`: inverse of `b64Encode`; a length
of 1 mod 4 is invalid; trailing bits are discarded (Go only rejects them in
strict mode, which the repository does not use). -/
def b64Decode : List Char → Option (List Nat)
  | [] => some []
  | [_] => none
  | [c0, c1] => do
    let n0 ← b64Index c0
    let n1 ← b64Index c1
    pure [n0 * 4 + n1 / 16]
  | [c0, c1, c2] => do
    let n0 ← b64Index c0
    let n1 ← b64Index c1
    let n2 ← b64Index c2
    pure [n0 * 4 + n1 / 16, n1 % 16 * 16 + n2 / 4]
  | c0 :: c1 :: c2 :: c3 :: rest => do
    let n0 ← b64Index c0
    let n1 ← b64Index c1
    let n2 ← b64Index c2
    let n3 ← b64Index c3
    let tail ← b64Decode rest
    pure ((n0 * 4 + n1 / 16) :: (n1 % 16 * 16 + n2 / 4) :: (n2 % 4 * 64 + n3) :: tail)

/-- Parameter section of the encoded hash, `fmt.Sprintf("m=%d,t=%d,p=%d", …)`
with the constant Argon2id parameters. -/
def passwordHashParams : List Char :=
  ("m=" ++ Nat.repr argon2Memory ++ ",t=" ++ Nat.repr argon2Time ++
    ",p=" ++ Nat.repr argon2Threads).toList

/-- Go `PasswordHasher.Hash`: derive an Argon2id key for the password with the
fixed parameters and the given random salt, and encode everything as
`$argon2id$v=19$m=65536,t=3,p=4$<salt>$<hash>` with raw-std base64. The
16-byte random salt drawn inside the Go function is the `salt` argument. -/
def passwordHash (idKey : IDKeyFn) (password : String) (salt : List Nat) : List Char :=
  let hash := idKey password salt argon2Time argon2Memory argon2Threads argon2KeyLen
  '$' :: ("argon2id".toList ++ '$' :: ("v=19".toList ++ '$' ::
    (passwordHashParams ++ '$' :: (b64Encode salt ++ '$' :: b64Encode hash))))

/-- Leading-digits parser used to model the `%d` verbs of
`fmt.Sscanf(parts[3], "m=%d,t=%d,p=%d", …)`. -/
def parseNatAux : Nat → List Char → Nat × List Char
  | acc, c :: rest =>
    if c.isDigit then parseNatAux (acc * 10 + (c.toNat - 48)) rest else (acc, c :: rest)
  | acc, [] => (acc, [])

/-- Parse one decimal integer; fails when the input does not start with a digit. -/
def parseNat (s : List Char) : Option (Nat × List Char) :=
  match s with
  | c :: _ => if c.isDigit then some (parseNatAux 0 s) else none
  | [] => none

/-- Model of `fmt.Sscanf(s, "m=%d,t=%d,p=%d", &memory, &time, &threads)`:
literal text must match and each verb reads a decimal integer. -/
def parseParams (s : List Char) : Option (Nat × Nat × Nat) :=
  match s with
  | 'm' :: '=' :: rest0 =>
    match parseNat rest0 with
    | none => none
    | some (m, rest1) =>
      match rest1 with
      | ',' :: 't' :: '=' :: rest2 =>
        match parseNat rest2 with
        | none => none
        | some (t, rest3) =>
          match rest3 with
          | ',' :: 'p' :: '=' :: rest4 =>
            match parseNat rest4 with
            | none => none
            | some (p, _) => some (m, t, p)
          | _ => none
      | _ => none
  | _ => none

/-- Go `PasswordHasher.Verify`: split the encoded hash on `$`, check the shape
and the `argon2id` tag, parse the parameters, decode salt and stored key,
recompute `argon2.IDKey` on the candidate password with the parsed parameters,
and compare in constant time (a running `or` of bytewise `xor`s). The result
mirrors Go's `(bool, error)` pair: a wrong password is `(false, none)`,
a malformed encoding is `(false, some message)`. -/
def passwordVerify (idKey : IDKeyFn) (password : String) (encodedHash : List Char) :
    Bool × Option (List Char) :=
  match splitOnChar '$' encodedHash with
  | [[], p1, _, p3, p4, p5] =>
    if p1 = "argon2id".toList then
      match parseParams p3 with
      | none => (false, some "parse hash: bad params".toList)
      | some (memory, timeParam, threads) =>
        match b64Decode p4 with
        | none => (false, some "decode salt: corrupt input".toList)
        | some salt =>
          let hash := idKey password salt timeParam memory threads argon2KeyLen
          match b64Decode p5 with
          | none => (false, some "decode hash: corrupt input".toList)
          | some expectedHash =>
            if hash.length = expectedHash.length then
              ((hash.zip expectedHash).foldl
                (fun acc pr => acc ||| (pr.1 ^^^ pr.2)) 0 == 0, none)
            else (false, none)
    else (false, some "parse hash: invalid format".toList)
  | _ => (false, some "parse hash: invalid format".toList)

/-! ### Tenant resolution (`auth/tenant`, `HostResolver`) -/

/-- Row of the `tenants` table (`core.Tenant`). -/
structure Tenant where
  id : List Char
  slug : List Char
  name : List Char
  status : List Char
  createdAt : Int
deriving DecidableEq, Repr

/-- Row of the `tenant_domains` table (`core.TenantDomain`). -/
structure TenantDomain where
  id : List Char
  tenantID : List Char
  domain : List Char
  verifiedAt : Option Int
  createdAt : Int
deriving DecidableEq, Repr

/-- Go `domainStore.GetByDomain`: `First(&model, "domain = ?", domain)`. -/
def domainGetByDomain (domains : List TenantDomain) (domain : List Char) :
    Option TenantDomain :=
  domains.find? (fun d => d.domain == domain)

/-- Go `tenantStore.GetByID`: `First(&model, "id = ?", id)`. -/
def tenantGetByID (tenants : List Tenant) (id : List Char) : Option Tenant :=
  tenants.find? (fun t => t.id == id)

/-- Go `tenantStore.GetBySlug`: `First(&model, "slug = ?", slug)`. -/
def tenantGetBySlug (tenants : List Tenant) (slug : List Char) : Option Tenant :=
  tenants.find? (fun t => t.slug == slug)

/-- Drop everything up to and including the first occurrence of `://`;
`none` when the string does not contain `://` (models the
`strings.Contains(host, "://")` guard). -/
def dropThroughScheme : List Char → Option (List Char)
  | ':' :: '/' :: '/' :: rest => some rest
  | _ :: rest => dropThroughScheme rest
  | [] => none

/-- Authority part of what follows the scheme: everything before the first
`/`, `?` or `#`. Together with `dropThroughScheme` this models the external
`url.Parse(host).Host` call on `scheme://host[:port][/path]` inputs. -/
def hostPart (l : List Char) : List Char :=
  l.takeWhile (fun c => c != '/' && c != '?' && c != '#')

/-- Go `normalizeHost`: take the URL authority when the string contains `://`,
strip everything from the first `:` (the port), and lowercase. -/
def normalizeHost (host : List Char) : List Char :=
  let afterURL :=
    match dropThroughScheme host with
    | some rest => hostPart rest
    | none => host
  (afterURL.takeWhile (fun c => c != ':')).map Char.toLower

/-- Go `strings.TrimSuffix(l, ".")`. -/
def trimTrailingDot (l : List Char) : List Char :=
  if ['.'].isSuffixOf l then l.take (l.length - 1) else l

/-- Go `extractSlug`: normalize both strings, require the base domain as a
suffix, strip it and a trailing dot, and return the first dot-separated part
of what remains (empty when there is none). -/
def extractSlug (host baseDomain : List Char) : List Char :=
  let host := normalizeHost host
  let baseDomain := normalizeHost baseDomain
  if baseDomain.isSuffixOf host then
    let pre := trimTrailingDot (host.take (host.length - baseDomain.length))
    match splitOnChar '.' pre with
    | [] => []
    | p :: _ => if p.isEmpty then [] else p
  else []

/-- Data a `HostResolver` closes over: the domain table, the tenant table and
the configured base domain. -/
structure ResolverState where
  domains : List TenantDomain
  tenants : List Tenant
  baseDomain : List Char
deriving Repr

/-- Go `HostResolver.ResolveTenant`: normalize the host, try an exact custom
domain match (rejecting unverified domains), otherwise fall back to the
subdomain-slug lookup against the base domain. -/
def ResolveTenant (st : ResolverState) (host : List Char) : Except (List Char) Tenant :=
  let host := normalizeHost host
  match domainGetByDomain st.domains host with
  | some domain =>
    match domain.verifiedAt with
    | none => .error "domain not verified".toList
    | some _ =>
      match tenantGetByID st.tenants domain.tenantID with
      | some t => .ok t
      | none => .error "record not found".toList
  | none =>
    let slug := extractSlug host st.baseDomain
    if slug.isEmpty then .error ("tenant not found for host: ".toList ++ host)
    else
      match tenantGetBySlug st.tenants slug with
      | some t => .ok t
      | none => .error "record not found".toList

/-- Outcome classification used to compare the implementation with the
specification: a resolved tenant, a not-verified failure, or a not-found
failure. -/
inductive ResolveOutcome where
  | resolved (t : Tenant)
  | notVerified
  | notFound
deriving DecidableEq, Repr

/-- Map the implementation's result onto the specification's outcome kinds:
the only not-verified failure is the dedicated error message; every other
error is a not-found failure. -/
def classifyResolve : Except (List Char) Tenant → ResolveOutcome
  | .ok t => .resolved t
  | .error e => if e = "domain not verified".toList then .notVerified else .notFound

/-- Resolution procedure written from the specification's words (spec §4.1 and
claim C5): normalize the host (strip scheme, strip port, lowercase); an exact
match in the domain table fails when `verified_at` is null and returns the
owning tenant when it is set; otherwise, when the normalized host ends with
the configured base domain, the leftmost dot-separated label of the remaining
text is looked up as `Tenant.slug`; otherwise not-found. -/
def resolveTenantSpec (st : ResolverState) (host : List Char) : ResolveOutcome :=
  let n := normalizeHost host
  match domainGetByDomain st.domains n with
  | some d =>
    match d.verifiedAt with
    | none => .notVerified
    | some _ =>
      match tenantGetByID st.tenants d.tenantID with
      | some t => .resolved t
      | none => .notFound
  | none =>
    let base := normalizeHost st.baseDomain
    if base.isSuffixOf n then
      let label := (n.take (n.length - base.length)).takeWhile (fun c => c != '.')
      if label.isEmpty then .notFound
      else
        match tenantGetBySlug st.tenants label with
        | some t => .resolved t
        | none => .notFound
    else .notFound

/-! ### Refresh tokens and authorization codes (`core` models, `store`, `tokens`, `oauth`) -/

/-- Row of the `refresh_tokens` table (`core.RefreshToken`); `token_hash` is
the primary key. -/
structure RefreshToken where
  tokenHash : String
  tenantID : String
  clientID : String
  userID : String
  scope : String
  createdAt : Int
  expiresAt : Int
  revokedAt : Option Int
  rotatedFromHash : Option String
deriving DecidableEq, Repr

/-- The `refresh_tokens` table. -/
abbrev RefreshDB := List RefreshToken

/-- Go `refreshTokenStore.GetByHash`:
`First(&model, "token_hash = ? AND tenant_id = ?", hash, tenantID)`. -/
def refreshGetByHash (db : RefreshDB) (tenantID hash : String) : Option RefreshToken :=
  db.find? (fun r => r.tokenHash == hash && r.tenantID == tenantID)

/-- Go `refreshTokenStore.Revoke`: the update predicate is
`Where("token_hash = ?", hash)` — it does not mention `tenant_id`, so every row
with the hash is revoked regardless of the tenant argument. -/
def refreshRevoke (db : RefreshDB) (tenantID hash : String) (now : Int) : RefreshDB :=
  db.map (fun r => if r.tokenHash == hash then { r with revokedAt := some now } else r)

/-- Go `refreshTokenStore.Create`: a GORM insert that fails exactly on a
primary-key (`token_hash`) collision. -/
def refreshCreate (db : RefreshDB) (t : RefreshToken) : Except String RefreshDB :=
  if db.any (fun r => r.tokenHash == t.tokenHash) then .error "duplicate key"
  else .ok (db ++ [t])

/-- Go `tokens.Service.RotateRefreshToken`. The clock value is the `now`
argument and the fresh `uuid.New()` string is the `newTokenValue` argument;
the SHA-256 token hash is the `hashString` parameter. The old-token revocation
and the new-token insertion are two separate store calls with no surrounding
transaction, so an error result carries the database as already mutated when
the error was returned. -/
def RotateRefreshToken (hashString : String → String) (refreshTTL : Int)
    (db : RefreshDB) (tenantID oldToken newTokenValue : String) (now : Int) :
    Except (String × RefreshDB) (String × RefreshDB) :=
  let oldHash := hashString oldToken
  match refreshGetByHash db tenantID oldHash with
  | none => .error ("get refresh token: record not found", db)
  | some rt =>
    if rt.revokedAt ≠ none then .error ("refresh token revoked", db)
    else if now > rt.expiresAt then .error ("refresh token expired", db)
    else
      let db1 := refreshRevoke db tenantID oldHash now
      let newRT : RefreshToken :=
        { tokenHash := hashString newTokenValue
          tenantID := rt.tenantID
          clientID := rt.clientID
          userID := rt.userID
          scope := rt.scope
          createdAt := now
          expiresAt := now + refreshTTL
          revokedAt := none
          rotatedFromHash := some oldHash }
      match refreshCreate db1 newRT with
      | .error e => .error ("store new refresh token: " ++ e, db1)
      | .ok db2 => .ok (newTokenValue, db2)

/-- Row of the `oauth_codes` table (`core.OAuthCode`); `code_hash` is the
primary key. -/
structure OAuthCode where
  codeHash : String
  tenantID : String
  clientID : String
  userID : String
  redirectURI : String
  pkceChallenge : String
  pkceMethod : String
  scope : String
  expiresAt : Int
  usedAt : Option Int
  createdAt : Int
deriving DecidableEq, Repr

/-- The `oauth_codes` table. -/
abbrev CodeDB := List OAuthCode

/-- Go `oauthCodeStore.Create`: a GORM insert that fails exactly on a
primary-key (`code_hash`) collision. -/
def oauthCodeCreate (db : CodeDB) (c : OAuthCode) : Except String CodeDB :=
  if db.any (fun r => r.codeHash == c.codeHash) then .error "duplicate key"
  else .ok (db ++ [c])

/-- Go `oauthCodeStore.GetAndConsume`: select the row by
`code_hash = ? AND tenant_id = ?`; reject a used row, then a row whose expiry
lies strictly in the past (`time.Now().After(ExpiresAt)`); otherwise set
`used_at = now` on every row matching `code_hash = ?` (the update predicate
does not mention the tenant) and return the snapshot read before the update.
The two `time.Now()` calls inside the Go function are modelled as the single
instant `now`. Early error returns roll the transaction back, so they leave
the database unchanged. -/
def GetAndConsume (db : CodeDB) (tenantID codeHash : String) (now : Int) :
    Except String (OAuthCode × CodeDB) :=
  match db.find? (fun r => r.codeHash == codeHash && r.tenantID == tenantID) with
  | none => .error "record not found"
  | some model =>
    if model.usedAt ≠ none then .error "code already used"
    else if now > model.expiresAt then .error "code expired"
    else
      let db1 := db.map (fun r =>
        if r.codeHash == codeHash then { r with usedAt := some now } else r)
      .ok (model, db1)

/-- Row of the `clients` table (`core.Client`); a null or empty
`client_secret_hash` marks a public client. -/
structure Client where
  id : String
  tenantID : String
  name : String
  clientID : String
  clientSecretHash : Option String
  redirectURIs : List String
  grantTypes : List String
  responseTypes : List String
  scopes : List String
deriving DecidableEq, Repr

/-- Go `clientStore.GetByClientID`:
`First(&model, "tenant_id = ? AND client_id = ?", tenantID, clientID)`. -/
def clientGetByClientID (clients : List Client) (tenantID clientID : String) :
    Option Client :=
  clients.find? (fun c => c.tenantID == tenantID && c.clientID == clientID)

/-- Go `core.AuthorizeRequest`. -/
structure AuthorizeRequest where
  responseType : String
  clientID : String
  redirectURI : String
  scope : String
  state : String
  codeChallenge : String
  codeChallengeMethod : String
  nonce : String
  tenantID : String
  userID : String
deriving Repr

/-- Go `core.AuthorizeResponse`. -/
structure AuthorizeResponse where
  code : String
  state : String
  redirectURI : String
deriving DecidableEq, Repr

/-- Go `oauth.Service.Authorize`: resolve the client, require the redirect URI
to be registered and the response type to be `code`, then build and store the
authorization code row; the stored row copies the request's `code_challenge`
and `code_challenge_method` fields verbatim. The random code value drawn by
`uuid.New()` is the `codeValue` argument and the audit sink is elided (it does
not influence the result). -/
def Authorize (hashString : String → String) (codeTTL : Int) (clients : List Client)
    (db : CodeDB) (req : AuthorizeRequest) (codeValue : String) (now : Int) :
    Except String (AuthorizeResponse × CodeDB) :=
  match clientGetByClientID clients req.tenantID req.clientID with
  | none => .error "client not found"
  | some client =>
    if !(client.redirectURIs.contains req.redirectURI) then .error "invalid redirect uri"
    else if req.responseType ≠ "code" then .error "unsupported response type"
    else
      let code : OAuthCode :=
        { codeHash := hashString codeValue
          tenantID := req.tenantID
          clientID := req.clientID
          userID := req.userID
          redirectURI := req.redirectURI
          pkceChallenge := req.codeChallenge
          pkceMethod := req.codeChallengeMethod
          scope := req.scope
          expiresAt := now + codeTTL
          usedAt := none
          createdAt := now }
      match oauthCodeCreate db code with
      | .error e => .error ("store code: " ++ e)
      | .ok db1 =>
        .ok ({ code := codeValue, state := req.state, redirectURI := req.redirectURI }, db1)

/-- Claims handed to `jwtManager.Sign` by `tokens.Service.IssueAccessToken`.
JWT signing is modelled symbolically: the access token is identified with this
claims record (Sign additionally stamps iat/nbf/exp/jti, which no claim under
verification mentions). -/
structure AccessClaims where
  sub : String
  aud : String
  scope : String
  roles : List String
  sid : Option String
  tid : String
  iss : String
deriving DecidableEq, Repr

/-- Go `tokens.Service.IssueAccessToken`: build the claims map
`{sub, aud, scope, roles}` plus `sid` when a session is given, with the issuer
`https://<tenantID>.auth.example.com`, and sign it for the tenant. -/
def IssueAccessToken (tenantID userID clientID scope : String) (roles : List String)
    (sessionID : Option String) : AccessClaims :=
  { sub := userID
    aud := clientID
    scope := scope
    roles := roles
    sid := sessionID
    tid := tenantID
    iss := "https://" ++ tenantID ++ ".auth.example.com" }

/-- Go `core.TokenRequest`. -/
structure TokenRequest where
  grantType : String
  code : String
  redirectURI : String
  codeVerifier : String
  refreshToken : String
  clientID : String
  clientSecret : String
  scope : String
  tenantID : String
deriving Repr

/-- Go `core.TokenResponse`, with the access token as its symbolic claims. -/
structure TokenResponse where
  accessToken : AccessClaims
  tokenType : String
  expiresIn : Nat
  refreshToken : String
  scope : String
deriving DecidableEq, Repr

/-- Go `oauth.Service.handleRefreshToken`: rotate the presented refresh token,
then issue an access token; the Go code passes the empty string as the user id
and the request's `client_id` and `scope` to `IssueAccessToken` (it has no
access to the rotated record). -/
def handleRefreshToken (hashString : String → String) (refreshTTL : Int)
    (db : RefreshDB) (req : TokenRequest) (newTokenValue : String) (now : Int) :
    Except (String × RefreshDB) (TokenResponse × RefreshDB) :=
  match RotateRefreshToken hashString refreshTTL db req.tenantID req.refreshToken
      newTokenValue now with
  | .error (e, db1) => .error ("rotate refresh token: " ++ e, db1)
  | .ok (newToken, db1) =>
    let accessToken := IssueAccessToken req.tenantID "" req.clientID req.scope [] none
    .ok ({ accessToken := accessToken
           tokenType := "Bearer"
           expiresIn := 900
           refreshToken := newToken
           scope := req.scope }, db1)

/-- Go `oauth.Service.handleClientCredentials`: resolve the client and reject a
public client (`ClientSecretHash` nil or empty); for a confidential client it
issues the access token without comparing `req.clientSecret` against the
stored hash. -/
def handleClientCredentials (clients : List Client) (req : TokenRequest) :
    Except String TokenResponse :=
  match clientGetByClientID clients req.tenantID req.clientID with
  | none => .error "client not found"
  | some client =>
    if client.clientSecretHash = none ∨ client.clientSecretHash = some "" then
      .error "client secret required"
    else
      .ok { accessToken := IssueAccessToken req.tenantID "" req.clientID req.scope [] none
            tokenType := "Bearer"
            expiresIn := 900
            refreshToken := ""
            scope := req.scope }

/-- Row of the `signing_keys` table (`core.SigningKey`), key material elided. -/
structure SigningKey where
  id : String
  tenantID : String
  kid : String
  status : String
  createdAt : Int
  notBefore : Int
  notAfter : Int
deriving DecidableEq, Repr

/-- Go `signingKeyStore.MarkInactive`: the update predicate is
`Where("id = ?", id)` — it does not mention `tenant_id`. -/
def signingKeyMarkInactive (db : List SigningKey) (tenantID id : String) :
    List SigningKey :=
  db.map (fun k => if k.id == id then { k with status := "inactive" } else k)

/-! ## General lemmas about the store combinators -/

/-- A successful `find?` over a list is preserved by appending on the right. -/
theorem find?_append_some {α : Type} {p : α → Bool} {l1 : List α} (l2 : List α)
    {a : α} (h : l1.find? p = some a) : (l1 ++ l2).find? p = some a := by
  rw [List.find?_append, h]
  rfl

/-- The `find?` of a mapped list, when the map does not change the fields the
predicate looks at. -/
theorem find?_map_preserved {α : Type} (f : α → α) (p : α → Bool)
    (hf : ∀ a, p (f a) = p a) : ∀ l : List α, (l.map f).find? p = (l.find? p).map f
  | [] => rfl
  | a :: l => by
    cases hpa : p a with
    | true =>
      rw [List.map_cons, List.find?_cons_of_pos (List.map f l) (by rw [hf]; exact hpa),
        List.find?_cons_of_pos l hpa, Option.map_some']
    | false =>
      rw [List.map_cons, List.find?_cons_of_neg (List.map f l) (by simp [hf, hpa]),
        List.find?_cons_of_neg l (by simp [hpa]), find?_map_preserved f p hf l]

/-- Revoking a hash rewrites the row `GetByHash` finds into its revoked copy
(`refreshRevoke` touches neither `token_hash` nor `tenant_id`). -/
theorem refreshGetByHash_refreshRevoke {db : RefreshDB} {t hash : String}
    (t' : String) (now : Int) {rt : RefreshToken}
    (h : refreshGetByHash db t hash = some rt) :
    refreshGetByHash (refreshRevoke db t' hash now) t hash =
      some { rt with revokedAt := some now } := by
  unfold refreshGetByHash refreshRevoke at *
  have hp := List.find?_some h
  simp only [Bool.and_eq_true] at hp
  have hr : (rt.tokenHash == hash) = true := hp.1
  rw [find?_map_preserved _ _ (fun r => by split <;> rfl) db, h]
  show some (if rt.tokenHash == hash then { rt with revokedAt := some now } else rt) =
    some { rt with revokedAt := some now }
  rw [if_pos hr]

/-- Membership in a revoked table comes from membership in the original. -/
theorem mem_refreshRevoke {db : RefreshDB} {t hash : String} {now : Int}
    {r : RefreshToken} (h : r ∈ refreshRevoke db t hash now) :
    ∃ r0 ∈ db, r = (if r0.tokenHash == hash then { r0 with revokedAt := some now } else r0) := by
  obtain ⟨r0, hr0, rfl⟩ := List.mem_map.mp h
  exact ⟨r0, hr0, rfl⟩

/-! ## Claim theorems -/

/-- C1 (counterexample): with the stand-in injective token hash `"#" ++ ·`, a
single-token table is rotated (`t1` becomes `t2`); presenting `t1` again is
rejected as revoked, yet a subsequent rotation of its successor `t2` in the
same tenant succeeds — the code never revokes the descendant chain, so the
claimed failure of `t2` is false. -/
theorem c1_chain_revocation_counterexample :
    RotateRefreshToken (fun s => "#" ++ s) 500
        [{ tokenHash := "#t1", tenantID := "tn", clientID := "c1", userID := "u1",
           scope := "openid", createdAt := 0, expiresAt := 1000, revokedAt := none,
           rotatedFromHash := none }] "tn" "t1" "t2" 10 =
      .ok ("t2",
        [{ tokenHash := "#t1", tenantID := "tn", clientID := "c1", userID := "u1",
           scope := "openid", createdAt := 0, expiresAt := 1000, revokedAt := some 10,
           rotatedFromHash := none },
         { tokenHash := "#t2", tenantID := "tn", clientID := "c1", userID := "u1",
           scope := "openid", createdAt := 10, expiresAt := 510, revokedAt := none,
           rotatedFromHash := some "#t1" }]) ∧
    RotateRefreshToken (fun s => "#" ++ s) 500
        [{ tokenHash := "#t1", tenantID := "tn", clientID := "c1", userID := "u1",
           scope := "openid", createdAt := 0, expiresAt := 1000, revokedAt := some 10,
           rotatedFromHash := none },
         { tokenHash := "#t2", tenantID := "tn", clientID := "c1", userID := "u1",
           scope := "openid", createdAt := 10, expiresAt := 510, revokedAt := none,
           rotatedFromHash := some "#t1" }] "tn" "t1" "t2x" 20 =
      .error ("refresh token revoked",
        [{ tokenHash := "#t1", tenantID := "tn", clientID := "c1", userID := "u1",
           scope := "openid", createdAt := 0, expiresAt := 1000, revokedAt := some 10,
           rotatedFromHash := none },
         { tokenHash := "#t2", tenantID := "tn", clientID := "c1", userID := "u1",
           scope := "openid", createdAt := 10, expiresAt := 510, revokedAt := none,
           rotatedFromHash := some "#t1" }]) ∧
    (RotateRefreshToken (fun s => "#" ++ s) 500
        [{ tokenHash := "#t1", tenantID := "tn", clientID := "c1", userID := "u1",
           scope := "openid", createdAt := 0, expiresAt := 1000, revokedAt := some 10,
           rotatedFromHash := none },
         { tokenHash := "#t2", tenantID := "tn", clientID := "c1", userID := "u1",
           scope := "openid", createdAt := 10, expiresAt := 510, revokedAt := none,
           rotatedFromHash := some "#t1" }] "tn" "t2" "t3" 30).isOk = true :=
  ⟨rfl, rfl, rfl⟩

/-- C1 (amended): after a successful rotation of `rt1` into `rt2`, presenting
`rt1` again fails with the revoked error and leaves the database unchanged, but
the replayed presentation does not revoke the descendant chain: the successor
row (hash of `rt2`) is present and still unrevoked. -/
theorem c1_replay_rejected_but_chain_survives (hashString : String → String)
    (refreshTTL : Int) (db db1 : RefreshDB) (tenantID rt1 rt2 : String) (now : Int)
    (hrot : RotateRefreshToken hashString refreshTTL db tenantID rt1 rt2 now =
      .ok (rt2, db1)) :
    (∀ v2 now2, RotateRefreshToken hashString refreshTTL db1 tenantID rt1 v2 now2 =
      .error ("refresh token revoked", db1)) ∧
    (∃ r ∈ db1, r.tokenHash = hashString rt2) ∧
    (∀ r ∈ db1, r.tokenHash = hashString rt2 → r.revokedAt = none) := by
  simp only [RotateRefreshToken] at hrot
  split at hrot
  next hfind => exact absurd hrot (by simp)
  next rt hfind =>
    split at hrot
    next hrev => exact absurd hrot (by simp)
    next hrev =>
      split at hrot
      next hexp => exact absurd hrot (by simp)
      next hexp =>
        split at hrot
        next e hcreate => exact absurd hrot (by simp)
        next db2 hcreate =>
          simp only [Except.ok.injEq, Prod.mk.injEq, true_and] at hrot
          subst hrot
          unfold refreshCreate at hcreate
          rw [ite_eq_iff] at hcreate
          rcases hcreate with ⟨hdup, hcreate⟩ | ⟨hdup, hcreate⟩
          · exact absurd hcreate (by simp)
          simp only [Except.ok.injEq] at hcreate
          subst hcreate
          have hnew : refreshGetByHash
              (refreshRevoke db tenantID (hashString rt1) now ++
                [{ tokenHash := hashString rt2, tenantID := rt.tenantID,
                   clientID := rt.clientID, userID := rt.userID, scope := rt.scope,
                   createdAt := now, expiresAt := now + refreshTTL, revokedAt := none,
                   rotatedFromHash := some (hashString rt1) }])
              tenantID (hashString rt1) = some { rt with revokedAt := some now } :=
            find?_append_some _ (refreshGetByHash_refreshRevoke tenantID now hfind)
          refine ⟨?_, ?_, ?_⟩
          · intro v2 now2
            simp only [RotateRefreshToken, hnew]
            rw [if_pos (by simp)]
          · exact ⟨_, List.mem_append_right _ (List.mem_singleton.mpr rfl), rfl⟩
          · intro r hr hrh
            rcases List.mem_append.mp hr with hl | hr1
            · exfalso
              simp only [List.any_eq_true, not_exists, not_and, Bool.not_eq_true] at hdup
              have := hdup r hl
              rw [hrh] at this
              simp at this
            · rw [List.mem_singleton.mp hr1]

/-- C1 (witness for the amended theorem): the amended behaviour at the concrete
one-token table of the counterexample. -/
theorem c1_replay_witness :
    (∀ v2 now2, RotateRefreshToken (fun s => "#" ++ s) 500
        [{ tokenHash := "#t1", tenantID := "tn", clientID := "c1", userID := "u1",
           scope := "openid", createdAt := 0, expiresAt := 1000, revokedAt := some 10,
           rotatedFromHash := none },
         { tokenHash := "#t2", tenantID := "tn", clientID := "c1", userID := "u1",
           scope := "openid", createdAt := 10, expiresAt := 510, revokedAt := none,
           rotatedFromHash := some "#t1" }] "tn" "t1" v2 now2 =
      .error ("refresh token revoked",
        [{ tokenHash := "#t1", tenantID := "tn", clientID := "c1", userID := "u1",
           scope := "openid", createdAt := 0, expiresAt := 1000, revokedAt := some 10,
           rotatedFromHash := none },
         { tokenHash := "#t2", tenantID := "tn", clientID := "c1", userID := "u1",
           scope := "openid", createdAt := 10, expiresAt := 510, revokedAt := none,
           rotatedFromHash := some "#t1" }])) ∧
    (∃ r ∈ ([{ tokenHash := "#t1", tenantID := "tn", clientID := "c1", userID := "u1",
               scope := "openid", createdAt := 0, expiresAt := 1000, revokedAt := some 10,
               rotatedFromHash := none },
             { tokenHash := "#t2", tenantID := "tn", clientID := "c1", userID := "u1",
               scope := "openid", createdAt := 10, expiresAt := 510, revokedAt := none,
               rotatedFromHash := some "#t1" }] : RefreshDB),
       r.tokenHash = (fun s => "#" ++ s) "t2") ∧
    (∀ r ∈ ([{ tokenHash := "#t1", tenantID := "tn", clientID := "c1", userID := "u1",
               scope := "openid", createdAt := 0, expiresAt := 1000, revokedAt := some 10,
               rotatedFromHash := none },
             { tokenHash := "#t2", tenantID := "tn", clientID := "c1", userID := "u1",
               scope := "openid", createdAt := 10, expiresAt := 510, revokedAt := none,
               rotatedFromHash := some "#t1" }] : RefreshDB),
       r.tokenHash = (fun s => "#" ++ s) "t2" → r.revokedAt = none) :=
  c1_replay_rejected_but_chain_survives (fun s => "#" ++ s) 500
    [{ tokenHash := "#t1", tenantID := "tn", clientID := "c1", userID := "u1",
       scope := "openid", createdAt := 0, expiresAt := 1000, revokedAt := none,
       rotatedFromHash := none }] _ "tn" "t1" "t2" 10 rfl

/-- C2: failing input for the claimed rotation atomicity. The table holds the
fresh token `t1` and an unrelated row whose hash collides with the new token's
hash, so the insert fails; `RotateRefreshToken` returns an error but the old
row's `revoked_at` is already persisted (`some 10`, not null) — the revocation
is not rolled back, contradicting the claim. -/
theorem c2_failed_insert_leaves_old_row_revoked :
    RotateRefreshToken (fun s => "#" ++ s) 500
        [{ tokenHash := "#t1", tenantID := "tn", clientID := "c1", userID := "u1",
           scope := "openid", createdAt := 0, expiresAt := 1000, revokedAt := none,
           rotatedFromHash := none },
         { tokenHash := "#t2", tenantID := "other", clientID := "cx", userID := "ux",
           scope := "s", createdAt := 0, expiresAt := 99, revokedAt := none,
           rotatedFromHash := none }] "tn" "t1" "t2" 10 =
      .error ("store new refresh token: duplicate key",
        [{ tokenHash := "#t1", tenantID := "tn", clientID := "c1", userID := "u1",
           scope := "openid", createdAt := 0, expiresAt := 1000, revokedAt := some 10,
           rotatedFromHash := none },
         { tokenHash := "#t2", tenantID := "other", clientID := "cx", userID := "ux",
           scope := "s", createdAt := 0, expiresAt := 99, revokedAt := none,
           rotatedFromHash := none }]) := rfl

/-- C3 (counterexample): an authorize request with a known client, a registered
redirect URI and `response_type=code` but with an absent `code_challenge` (and
absent method) succeeds, and the authorization code is stored — the claimed
`MissingPKCE` rejection does not exist in the code. -/
theorem c3_missing_pkce_accepted_counterexample :
    Authorize (fun s => "#" ++ s) 600
        [{ id := "1", tenantID := "tn", name := "app", clientID := "web",
           clientSecretHash := none, redirectURIs := ["https://app.example.com/cb"],
           grantTypes := [], responseTypes := [], scopes := [] }]
        []
        { responseType := "code", clientID := "web",
          redirectURI := "https://app.example.com/cb", scope := "openid", state := "xyz",
          codeChallenge := "", codeChallengeMethod := "", nonce := "", tenantID := "tn",
          userID := "u1" }
        "code-1" 0 =
      .ok ({ code := "code-1", state := "xyz",
             redirectURI := "https://app.example.com/cb" },
        [{ codeHash := "#code-1", tenantID := "tn", clientID := "web", userID := "u1",
           redirectURI := "https://app.example.com/cb", pkceChallenge := "",
           pkceMethod := "", scope := "openid", expiresAt := 600, usedAt := none,
           createdAt := 0 }]) := rfl

/-- C3 (amended): `Authorize` performs no PKCE validation at all. For every
request with a known client, a registered redirect URI and `response_type=code`
whose fresh code hash is not yet in the table, the request succeeds and the
stored code row copies the presented `code_challenge` and
`code_challenge_method` verbatim — also when the challenge is absent or the
method is not `S256`. -/
theorem c3_authorize_never_validates_pkce (hashString : String → String)
    (codeTTL : Int) (clients : List Client) (db : CodeDB) (req : AuthorizeRequest)
    (codeValue : String) (now : Int) (client : Client)
    (hclient : clientGetByClientID clients req.tenantID req.clientID = some client)
    (hredir : client.redirectURIs.contains req.redirectURI = true)
    (hresp : req.responseType = "code")
    (hfresh : ∀ r ∈ db, r.codeHash ≠ hashString codeValue) :
    ∃ db1, Authorize hashString codeTTL clients db req codeValue now =
        .ok ({ code := codeValue, state := req.state, redirectURI := req.redirectURI },
          db1) ∧
      ∃ r ∈ db1, r.codeHash = hashString codeValue ∧
        r.pkceChallenge = req.codeChallenge ∧ r.pkceMethod = req.codeChallengeMethod := by
  have hAuth : Authorize hashString codeTTL clients db req codeValue now =
      .ok ({ code := codeValue, state := req.state, redirectURI := req.redirectURI },
        db ++ [{ codeHash := hashString codeValue
                 tenantID := req.tenantID
                 clientID := req.clientID
                 userID := req.userID
                 redirectURI := req.redirectURI
                 pkceChallenge := req.codeChallenge
                 pkceMethod := req.codeChallengeMethod
                 scope := req.scope
                 expiresAt := now + codeTTL
                 usedAt := none
                 createdAt := now }]) := by
    have hdup : (db.any (fun r => r.codeHash == hashString codeValue)) = false := by
      simp only [List.any_eq_false]
      intro r hr
      simpa using hfresh r hr
    have hmem : req.redirectURI ∈ client.redirectURIs := by simpa using hredir
    simp [Authorize, hclient, hredir, hmem, hresp, oauthCodeCreate, hdup]
  exact ⟨_, hAuth, _, List.mem_append_right _ (List.mem_singleton.mpr rfl), rfl, rfl, rfl⟩

/-- C3 (witness for the amended theorem): the amended behaviour at the concrete
request of the counterexample (absent challenge, absent method). -/
theorem c3_authorize_witness :
    ∃ db1, Authorize (fun s => "#" ++ s) 600
        [{ id := "1", tenantID := "tn", name := "app", clientID := "web",
           clientSecretHash := none, redirectURIs := ["https://app.example.com/cb"],
           grantTypes := [], responseTypes := [], scopes := [] }]
        []
        { responseType := "code", clientID := "web",
          redirectURI := "https://app.example.com/cb", scope := "openid", state := "xyz",
          codeChallenge := "", codeChallengeMethod := "", nonce := "", tenantID := "tn",
          userID := "u1" }
        "code-1" 0 =
        .ok ({ code := "code-1", state := "xyz",
               redirectURI := "https://app.example.com/cb" }, db1) ∧
      ∃ r ∈ db1, r.codeHash = (fun s => "#" ++ s) "code-1" ∧
        r.pkceChallenge = "" ∧ r.pkceMethod = "" :=
  c3_authorize_never_validates_pkce (fun s => "#" ++ s) 600 _ [] _ "code-1" 0
    { id := "1", tenantID := "tn", name := "app", clientID := "web",
      clientSecretHash := none, redirectURIs := ["https://app.example.com/cb"],
      grantTypes := [], responseTypes := [], scopes := [] }
    rfl rfl rfl (by simp)

/-- C4: failing input for tenant scoping of the stores. A refresh token
belonging to tenant `A` is revoked by a `Revoke` call made with tenant `B` and
the token's hash: the update filters on `token_hash` alone, so the tenant-A row
does not stay unrevoked as the claim requires. -/
theorem c4_revoke_crosses_tenants :
    refreshRevoke
        [{ tokenHash := "hA", tenantID := "A", clientID := "c", userID := "u",
           scope := "s", createdAt := 0, expiresAt := 100, revokedAt := none,
           rotatedFromHash := none }] "B" "hA" 50 =
      [{ tokenHash := "hA", tenantID := "A", clientID := "c", userID := "u",
         scope := "s", createdAt := 0, expiresAt := 100, revokedAt := some 50,
         rotatedFromHash := none }] := rfl

/-- C6: failing input for the refresh grant reissuing for the rotated record's
`(user, client, scope)`. The stored record belongs to `user-1` / `client-1`
with scope `openid`, but the request names `client-2` and scope `profile`; the
issued access token has subject `""`, audience `client-2` and scope `profile`,
taken from the request (and an empty user), not from the record. -/
theorem c6_refresh_grant_ignores_rotated_record :
    handleRefreshToken (fun s => "#" ++ s) 500
        [{ tokenHash := "#t1", tenantID := "tn", clientID := "client-1",
           userID := "user-1", scope := "openid", createdAt := 0, expiresAt := 1000,
           revokedAt := none, rotatedFromHash := none }]
        { grantType := "refresh_token", code := "", redirectURI := "",
          codeVerifier := "", refreshToken := "t1", clientID := "client-2",
          clientSecret := "", scope := "profile", tenantID := "tn" } "t2" 10 =
      .ok ({ accessToken :=
               { sub := "", aud := "client-2", scope := "profile", roles := [],
                 sid := none, tid := "tn", iss := "https://tn.auth.example.com" },
             tokenType := "Bearer", expiresIn := 900, refreshToken := "t2",
             scope := "profile" },
        [{ tokenHash := "#t1", tenantID := "tn", clientID := "client-1",
           userID := "user-1", scope := "openid", createdAt := 0, expiresAt := 1000,
           revokedAt := some 10, rotatedFromHash := none },
         { tokenHash := "#t2", tenantID := "tn", clientID := "client-1",
           userID := "user-1", scope := "openid", createdAt := 10, expiresAt := 510,
           revokedAt := none, rotatedFromHash := some "#t1" }]) := rfl

/-- C7: failing input for client-credentials secret verification. A public
client (nil secret hash) is rejected as the claim says, but a confidential
client presenting the wrong secret `totally-wrong-secret` against the stored
hash succeeds — the handler never verifies the secret. -/
theorem c7_client_credentials_skips_secret_verification :
    handleClientCredentials
        [{ id := "1", tenantID := "tn", name := "app", clientID := "web",
           clientSecretHash := none, redirectURIs := [], grantTypes := [],
           responseTypes := [], scopes := [] }]
        { grantType := "client_credentials", code := "", redirectURI := "",
          codeVerifier := "", refreshToken := "", clientID := "web",
          clientSecret := "anything", scope := "read", tenantID := "tn" } =
      .error "client secret required" ∧
    handleClientCredentials
        [{ id := "1", tenantID := "tn", name := "app", clientID := "web",
           clientSecretHash := some "stored-argon2id-hash", redirectURIs := [],
           grantTypes := [], responseTypes := [], scopes := [] }]
        { grantType := "client_credentials", code := "", redirectURI := "",
          codeVerifier := "", refreshToken := "", clientID := "web",
          clientSecret := "totally-wrong-secret", scope := "read", tenantID := "tn" } =
      .ok { accessToken :=
              { sub := "", aud := "web", scope := "read", roles := [], sid := none,
                tid := "tn", iss := "https://tn.auth.example.com" },
            tokenType := "Bearer", expiresIn := 900, refreshToken := "",
            scope := "read" } :=
  ⟨rfl, rfl⟩

/-- C8 (counterexample): an unused authorization code whose `expires_at` is 100,
consumed at exactly `now = 100`, succeeds (the Go check is the strict
`time.Now().After(ExpiresAt)`), contradicting the claimed `CodeExpired` at
exactly `expires_at`. -/
theorem c8_exact_expiry_succeeds_counterexample :
    GetAndConsume
        [{ codeHash := "h", tenantID := "tn", clientID := "c", userID := "u",
           redirectURI := "r", pkceChallenge := "p", pkceMethod := "S256",
           scope := "s", expiresAt := 100, usedAt := none, createdAt := 0 }]
        "tn" "h" 100 =
      .ok ({ codeHash := "h", tenantID := "tn", clientID := "c", userID := "u",
             redirectURI := "r", pkceChallenge := "p", pkceMethod := "S256",
             scope := "s", expiresAt := 100, usedAt := none, createdAt := 0 },
        [{ codeHash := "h", tenantID := "tn", clientID := "c", userID := "u",
           redirectURI := "r", pkceChallenge := "p", pkceMethod := "S256",
           scope := "s", expiresAt := 100, usedAt := some 100, createdAt := 0 }]) := rfl

/-- C8 (amended): for an unused code, `GetAndConsume` fails with the expired
error exactly when it is invoked strictly after `expires_at`; at any time up to
and including `expires_at` it succeeds. -/
theorem c8_expiry_boundary (db : CodeDB) (tenantID codeHash : String) (now : Int)
    (model : OAuthCode)
    (hfind : db.find? (fun r => r.codeHash == codeHash && r.tenantID == tenantID) =
      some model)
    (hunused : model.usedAt = none) :
    (now ≤ model.expiresAt → (GetAndConsume db tenantID codeHash now).isOk = true) ∧
    (now > model.expiresAt → GetAndConsume db tenantID codeHash now =
      .error "code expired") := by
  constructor
  · intro hle
    simp only [GetAndConsume, hfind]
    rw [if_neg (by simp [hunused]), if_neg (by omega)]
    rfl
  · intro hgt
    simp only [GetAndConsume, hfind]
    rw [if_neg (by simp [hunused]), if_pos hgt]

/-- C8 (witness for the amended theorem): at the concrete code of the
counterexample, consumption at `now = 100 = expires_at` succeeds and at
`now = 101` fails with the expired error. -/
theorem c8_expiry_witness :
    (GetAndConsume
        [{ codeHash := "h", tenantID := "tn", clientID := "c", userID := "u",
           redirectURI := "r", pkceChallenge := "p", pkceMethod := "S256",
           scope := "s", expiresAt := 100, usedAt := none, createdAt := 0 }]
        "tn" "h" 100).isOk = true ∧
    GetAndConsume
        [{ codeHash := "h", tenantID := "tn", clientID := "c", userID := "u",
           redirectURI := "r", pkceChallenge := "p", pkceMethod := "S256",
           scope := "s", expiresAt := 100, usedAt := none, createdAt := 0 }]
        "tn" "h" 101 =
      .error "code expired" :=
  ⟨(c8_expiry_boundary
      [{ codeHash := "h", tenantID := "tn", clientID := "c", userID := "u",
         redirectURI := "r", pkceChallenge := "p", pkceMethod := "S256",
         scope := "s", expiresAt := 100, usedAt := none, createdAt := 0 }]
      "tn" "h" 100
      { codeHash := "h", tenantID := "tn", clientID := "c", userID := "u",
        redirectURI := "r", pkceChallenge := "p", pkceMethod := "S256",
        scope := "s", expiresAt := 100, usedAt := none, createdAt := 0 }
      rfl rfl).1 (by decide),
   (c8_expiry_boundary
      [{ codeHash := "h", tenantID := "tn", clientID := "c", userID := "u",
         redirectURI := "r", pkceChallenge := "p", pkceMethod := "S256",
         scope := "s", expiresAt := 100, usedAt := none, createdAt := 0 }]
      "tn" "h" 101
      { codeHash := "h", tenantID := "tn", clientID := "c", userID := "u",
        redirectURI := "r", pkceChallenge := "p", pkceMethod := "S256",
        scope := "s", expiresAt := 100, usedAt := none, createdAt := 0 }
      rfl rfl).2 (by decide)⟩

/-- C10: every successful `GetAndConsume` returns the snapshot read before the
row was consumed — its `used_at` is null — while every stored row with that
code hash has `used_at = now` afterwards. -/
theorem c10_snapshot_predates_consumption (db : CodeDB) (tenantID codeHash : String)
    (now : Int) (c : OAuthCode) (db1 : CodeDB)
    (h : GetAndConsume db tenantID codeHash now = .ok (c, db1)) :
    c.usedAt = none ∧ c ∈ db ∧ ∀ r ∈ db1, r.codeHash = codeHash → r.usedAt = some now := by
  unfold GetAndConsume at h
  split at h
  next hfind => exact absurd h (by simp)
  next model hfind =>
    split at h
    next hused => exact absurd h (by simp)
    next hused =>
      split at h
      next hexp => exact absurd h (by simp)
      next hexp =>
        simp only [Except.ok.injEq, Prod.mk.injEq] at h
        obtain ⟨rfl, rfl⟩ := h
        refine ⟨by simpa using hused, List.mem_of_find?_eq_some hfind, ?_⟩
        intro r hr hrh
        obtain ⟨r0, hr0, rfl⟩ := List.mem_map.mp hr
        by_cases hc : (r0.codeHash == codeHash) = true
        · rw [if_pos hc]
        · rw [if_neg hc] at hrh ⊢
          exact absurd (by simpa using hrh) (by simpa using hc)

/-! ## Lemmas about splitting, base64 and the constant-time comparison -/

/-- Splitting a string that starts with the separator yields a leading empty
part. -/
theorem splitOnChar_cons_sep (sep : Char) (ys : List Char) :
    splitOnChar sep (sep :: ys) = [] :: splitOnChar sep ys := by
  conv_lhs => rw [splitOnChar]
  rw [if_pos rfl]

/-- Splitting around an occurrence of the separator peels off the prefix when
the prefix itself is separator-free. -/
theorem splitOnChar_append (sep : Char) (xs ys : List Char) (h : sep ∉ xs) :
    splitOnChar sep (xs ++ sep :: ys) = xs :: splitOnChar sep ys := by
  induction xs with
  | nil => simpa using splitOnChar_cons_sep sep ys
  | cons c rest ih =>
    have hc : ¬ (c = sep) := fun hh => h (hh ▸ List.mem_cons_self c rest)
    have hrest : sep ∉ rest := fun hh => h (List.mem_cons_of_mem c hh)
    rw [List.cons_append]
    conv_lhs => rw [splitOnChar]
    rw [if_neg hc, ih hrest]

/-- A separator-free string splits into itself alone. -/
theorem splitOnChar_no_sep (sep : Char) (l : List Char) (h : sep ∉ l) :
    splitOnChar sep l = [l] := by
  induction l with
  | nil => rfl
  | cons c rest ih =>
    have hc : ¬ (c = sep) := fun hh => h (hh ▸ List.mem_cons_self c rest)
    have hrest : sep ∉ rest := fun hh => h (List.mem_cons_of_mem c hh)
    conv_lhs => rw [splitOnChar]
    rw [if_neg hc, ih hrest]

/-- Every character the encoder emits lies in the base64 alphabet. -/
theorem b64Char_mem (n : Nat) : b64Char n ∈ b64Alphabet := by
  unfold b64Char
  rw [List.getD_eq_getElem?_getD]
  cases h : b64Alphabet[n]? with
  | none => exact (by decide : 'A' ∈ b64Alphabet)
  | some c => simpa using List.getElem?_mem h

/-- The dollar separator is not a base64 character. -/
theorem b64Char_ne_dollar (n : Nat) : b64Char n ≠ '$' := by
  intro h
  have := b64Char_mem n
  rw [h] at this
  exact absurd this (by decide)

/-- Base64 output never contains the dollar separator. -/
theorem dollar_not_mem_b64Encode (l : List Nat) : '$' ∉ b64Encode l := by
  induction l using b64Encode.induct with
  | case1 => simp [b64Encode]
  | case2 b0 =>
    simp only [b64Encode, List.mem_cons, List.not_mem_nil, or_false]
    rintro (h | h) <;> exact b64Char_ne_dollar _ h.symm
  | case3 b0 b1 =>
    simp only [b64Encode, List.mem_cons, List.not_mem_nil, or_false]
    rintro (h | h | h) <;> exact b64Char_ne_dollar _ h.symm
  | case4 b0 b1 b2 rest ih =>
    simp only [b64Encode, List.mem_cons]
    rintro (h | h | h | h | h)
    · exact b64Char_ne_dollar _ h.symm
    · exact b64Char_ne_dollar _ h.symm
    · exact b64Char_ne_dollar _ h.symm
    · exact b64Char_ne_dollar _ h.symm
    · exact ih h

/-- Index lookup inverts the encoder's character table on six-bit values. -/
theorem b64Index_b64Char : ∀ n, n < 64 → b64Index (b64Char n) = some n := by decide

/-- Raw-std base64 decoding inverts encoding on byte lists. -/
theorem b64Decode_b64Encode : ∀ l : List Nat, (∀ b ∈ l, b < 256) →
    b64Decode (b64Encode l) = some l := by
  intro l
  induction l using b64Encode.induct with
  | case1 => intro _; rfl
  | case2 b0 =>
    intro h
    have h0 : b0 < 256 := h b0 (by simp)
    simp only [b64Encode, b64Decode,
      b64Index_b64Char (b0 / 4) (by omega),
      b64Index_b64Char (b0 % 4 * 16) (by omega),
      Option.pure_def, Option.bind_eq_bind, Option.some_bind, Option.some.injEq,
      List.cons.injEq, and_true]
    omega
  | case3 b0 b1 =>
    intro h
    have h0 : b0 < 256 := h b0 (by simp)
    have h1 : b1 < 256 := h b1 (by simp)
    simp only [b64Encode, b64Decode,
      b64Index_b64Char (b0 / 4) (by omega),
      b64Index_b64Char (b0 % 4 * 16 + b1 / 16) (by omega),
      b64Index_b64Char (b1 % 16 * 4) (by omega),
      Option.pure_def, Option.bind_eq_bind, Option.some_bind, Option.some.injEq,
      List.cons.injEq, and_true]
    constructor <;> omega
  | case4 b0 b1 b2 rest ih =>
    intro h
    have h0 : b0 < 256 := h b0 (by simp)
    have h1 : b1 < 256 := h b1 (by simp)
    have h2 : b2 < 256 := h b2 (by simp)
    have hrest : ∀ b ∈ rest, b < 256 := fun b hb => h b (by simp [hb])
    simp only [b64Encode, b64Decode,
      b64Index_b64Char (b0 / 4) (by omega),
      b64Index_b64Char (b0 % 4 * 16 + b1 / 16) (by omega),
      b64Index_b64Char (b1 % 16 * 4 + b2 / 64) (by omega),
      b64Index_b64Char (b2 % 64) (by omega),
      ih hrest,
      Option.pure_def, Option.bind_eq_bind, Option.some_bind, Option.some.injEq,
      List.cons.injEq, and_true]
    refine ⟨by omega, by omega, by omega⟩

/-- A bitwise or vanishes exactly when both arguments vanish. -/
theorem lor_eq_zero_iff (a b : Nat) : a ||| b = 0 ↔ a = 0 ∧ b = 0 := by
  constructor
  · intro h
    have hbit : ∀ i, a.testBit i = false ∧ b.testBit i = false := by
      intro i
      have := congrArg (fun n => Nat.testBit n i) h
      simpa [Nat.testBit_lor] using this
    exact ⟨Nat.eq_of_testBit_eq fun i => by simp [(hbit i).1],
      Nat.eq_of_testBit_eq fun i => by simp [(hbit i).2]⟩
  · rintro ⟨rfl, rfl⟩
    rfl

/-- The running-or-of-xors accumulator of `PasswordHasher.Verify` vanishes
exactly when it started at zero and every pair it saw was equal. -/
theorem ctfold_aux (l : List (Nat × Nat)) (acc : Nat) :
    (l.foldl (fun a pr => a ||| (pr.1 ^^^ pr.2)) acc = 0) ↔
      (acc = 0 ∧ ∀ pr ∈ l, pr.1 = pr.2) := by
  induction l generalizing acc with
  | nil => simp
  | cons pr l ih =>
    rw [List.foldl_cons, ih, lor_eq_zero_iff, Nat.xor_eq_zero]
    constructor
    · rintro ⟨⟨h1, h2⟩, h3⟩
      refine ⟨h1, ?_⟩
      intro q hq
      rcases List.mem_cons.mp hq with rfl | hq
      · exact h2
      · exact h3 q hq
    · rintro ⟨h1, h2⟩
      exact ⟨⟨h1, h2 pr (List.mem_cons_self pr l)⟩,
        fun q hq => h2 q (List.mem_cons_of_mem _ hq)⟩

/-- Two equal-length byte lists agree pairwise on their zip exactly when they
are equal. -/
theorem zip_forall_eq : ∀ (a b : List Nat), a.length = b.length →
    ((∀ pr ∈ a.zip b, pr.1 = pr.2) ↔ a = b)
  | [], [], _ => by simp
  | [], _ :: _, h => by simp at h
  | _ :: _, [], h => by simp at h
  | x :: a, y :: b, h => by
    rw [List.zip_cons_cons]
    constructor
    · intro hall
      have hx : x = y := hall (x, y) (List.mem_cons_self _ _)
      have ha : a = b := (zip_forall_eq a b (by simpa using h)).mp
        fun q hq => hall q (List.mem_cons_of_mem _ hq)
      rw [hx, ha]
    · intro heq
      injection heq with h1 h2
      subst h1
      subst h2
      intro q hq
      rcases List.mem_cons.mp hq with rfl | hq
      · rfl
      · exact (zip_forall_eq a a rfl).mpr rfl q hq

/-- Splitting the encoded password hash recovers its five fields behind the
leading empty part. -/
theorem passwordHash_split (idKey : IDKeyFn) (password : String) (salt : List Nat) :
    splitOnChar '$' (passwordHash idKey password salt) =
      [[], "argon2id".toList, "v=19".toList, passwordHashParams, b64Encode salt,
       b64Encode (idKey password salt argon2Time argon2Memory argon2Threads
         argon2KeyLen)] := by
  unfold passwordHash
  rw [splitOnChar_cons_sep,
    splitOnChar_append _ _ _ (by decide),
    splitOnChar_append _ _ _ (by decide),
    splitOnChar_append _ _ _ (by decide),
    splitOnChar_append _ _ _ (dollar_not_mem_b64Encode salt),
    splitOnChar_no_sep _ _ (dollar_not_mem_b64Encode _)]

/-- C9: with the external Argon2id KDF abstracted as a function parameter,
`Verify(p, Hash(p))` returns `(true, nil)` for every password and salt, and for
every candidate `q` different from `p` whose derived key differs from `p`'s
(the KDF is collision-resistant; a collision is the only way Go's constant-time
comparison could accept), `Verify(q, Hash(p))` returns `(false, nil)`. Byte
bounds record that salts and derived keys are byte strings. -/
theorem c9_password_hash_verify_roundtrip (idKey : IDKeyFn) (p q : String)
    (salt : List Nat) (hsalt : ∀ b ∈ salt, b < 256)
    (hkey : ∀ pw s, ∀ b ∈ idKey pw s argon2Time argon2Memory argon2Threads argon2KeyLen,
      b < 256) :
    passwordVerify idKey p (passwordHash idKey p salt) = (true, none) ∧
    (q ≠ p →
      idKey q salt argon2Time argon2Memory argon2Threads argon2KeyLen ≠
        idKey p salt argon2Time argon2Memory argon2Threads argon2KeyLen →
      passwordVerify idKey q (passwordHash idKey p salt) = (false, none)) := by
  have hsplit := passwordHash_split idKey p salt
  have hsaltRT : b64Decode (b64Encode salt) = some salt := b64Decode_b64Encode salt hsalt
  have hkeyRT : b64Decode (b64Encode (idKey p salt argon2Time argon2Memory argon2Threads
      argon2KeyLen)) = some (idKey p salt argon2Time argon2Memory argon2Threads
      argon2KeyLen) := b64Decode_b64Encode _ (hkey p salt)
  have hparams : parseParams passwordHashParams =
      some (argon2Memory, argon2Time, argon2Threads) := by decide
  constructor
  · have h0 : ((idKey p salt argon2Time argon2Memory argon2Threads argon2KeyLen).zip
        (idKey p salt argon2Time argon2Memory argon2Threads argon2KeyLen)).foldl
        (fun acc pr => acc ||| (pr.1 ^^^ pr.2)) 0 = 0 :=
      (ctfold_aux _ _).mpr ⟨rfl, (zip_forall_eq _ _ rfl).mpr rfl⟩
    simp [passwordVerify, hsplit, hparams, hsaltRT, hkeyRT, h0]
  · intro hqp hdiff
    by_cases hlen : (idKey q salt argon2Time argon2Memory argon2Threads
        argon2KeyLen).length = (idKey p salt argon2Time argon2Memory argon2Threads
        argon2KeyLen).length
    · have hne : ((idKey q salt argon2Time argon2Memory argon2Threads argon2KeyLen).zip
          (idKey p salt argon2Time argon2Memory argon2Threads argon2KeyLen)).foldl
          (fun acc pr => acc ||| (pr.1 ^^^ pr.2)) 0 ≠ 0 := by
        intro h0
        exact hdiff ((zip_forall_eq _ _ hlen).mp ((ctfold_aux _ _).mp h0).2)
      simp [passwordVerify, hsplit, hparams, hsaltRT, hkeyRT, hlen, hne]
    · simp [passwordVerify, hsplit, hparams, hsaltRT, hkeyRT, hlen]

/-- C9 (witness): the round trip at a concrete toy KDF (the byte
`length % 256` of the password), password `a`, candidate `bb` and an all-7
16-byte salt. -/
theorem c9_password_witness :
    passwordVerify (fun pw _ _ _ _ _ => [pw.length % 256]) "a"
        (passwordHash (fun pw _ _ _ _ _ => [pw.length % 256]) "a"
          (List.replicate 16 7)) = (true, none) ∧
    passwordVerify (fun pw _ _ _ _ _ => [pw.length % 256]) "bb"
        (passwordHash (fun pw _ _ _ _ _ => [pw.length % 256]) "a"
          (List.replicate 16 7)) = (false, none) :=
  have h := c9_password_hash_verify_roundtrip (fun pw _ _ _ _ _ => [pw.length % 256])
    "a" "bb" (List.replicate 16 7)
    (by decide)
    (fun pw s b hb => by
      simp only [List.mem_singleton] at hb
      subst hb
      exact Nat.mod_lt _ (by omega))
  ⟨h.1, h.2 (by decide) (by decide)⟩

/-- C10 (witness): the property at a concrete one-row table; the returned
snapshot's `used_at` is null while the stored row's is `some 40`. -/
theorem c10_snapshot_witness :
    ({ codeHash := "h", tenantID := "tn", clientID := "c", userID := "u",
       redirectURI := "r", pkceChallenge := "p", pkceMethod := "S256", scope := "s",
       expiresAt := 100, usedAt := none, createdAt := 0 } : OAuthCode).usedAt = none ∧
    ({ codeHash := "h", tenantID := "tn", clientID := "c", userID := "u",
       redirectURI := "r", pkceChallenge := "p", pkceMethod := "S256", scope := "s",
       expiresAt := 100, usedAt := none, createdAt := 0 } : OAuthCode) ∈
      [({ codeHash := "h", tenantID := "tn", clientID := "c", userID := "u",
          redirectURI := "r", pkceChallenge := "p", pkceMethod := "S256", scope := "s",
          expiresAt := 100, usedAt := none, createdAt := 0 } : OAuthCode)] ∧
    ∀ r ∈ [({ codeHash := "h", tenantID := "tn", clientID := "c", userID := "u",
              redirectURI := "r", pkceChallenge := "p", pkceMethod := "S256",
              scope := "s", expiresAt := 100, usedAt := some 40, createdAt := 0 } :
              OAuthCode)],
      r.codeHash = "h" → r.usedAt = some 40 :=
  c10_snapshot_predates_consumption
    [{ codeHash := "h", tenantID := "tn", clientID := "c", userID := "u",
       redirectURI := "r", pkceChallenge := "p", pkceMethod := "S256", scope := "s",
       expiresAt := 100, usedAt := none, createdAt := 0 }]
    "tn" "h" 40 _ _ rfl

/-! ## Lemmas about host normalization -/

/-- Valid code points below the surrogate range survive the `Char.ofNat`
round trip. -/
theorem char_toNat_ofNat {n : Nat} (h : n < 55296) : (Char.ofNat n).toNat = n := by
  rw [Char.ofNat, dif_pos (Or.inl h)]
  rfl

/-- Code-point arithmetic of `Char.toLower`: uppercase ASCII shifts by 32,
everything else is unchanged. -/
theorem toLower_toNat (c : Char) :
    (Char.toLower c).toNat =
      if c.toNat ≥ 65 ∧ c.toNat ≤ 90 then c.toNat + 32 else c.toNat := by
  simp only [Char.toLower]
  by_cases h : c.toNat ≥ 65 ∧ c.toNat ≤ 90
  · rw [if_pos h, if_pos h]
    exact char_toNat_ofNat (by omega)
  · rw [if_neg h, if_neg h]

/-- Characters outside the uppercase ASCII range are fixed by `Char.toLower`. -/
theorem toLower_eq_self {c : Char} (h : ¬ (c.toNat ≥ 65 ∧ c.toNat ≤ 90)) :
    Char.toLower c = c := by
  simp only [Char.toLower]
  rw [if_neg h]

/-- Lowercasing is idempotent. -/
theorem toLower_idem (c : Char) : Char.toLower (Char.toLower c) = Char.toLower c := by
  apply toLower_eq_self
  rw [toLower_toNat c]
  by_cases h : c.toNat ≥ 65 ∧ c.toNat ≤ 90
  · rw [if_pos h]; omega
  · rw [if_neg h]; omega

/-- Only the colon lowercases to a colon. -/
theorem toLower_eq_colon {c : Char} (h : Char.toLower c = ':') : c = ':' := by
  by_cases hc : c.toNat ≥ 65 ∧ c.toNat ≤ 90
  · exfalso
    have h1 := congrArg Char.toNat h
    rw [toLower_toNat c, if_pos hc] at h1
    rw [show (':' : Char).toNat = 58 from rfl] at h1
    omega
  · rw [← h, toLower_eq_self hc]

/-- Members of a `takeWhile` satisfy the predicate. -/
theorem mem_takeWhile {α : Type} (p : α → Bool) :
    ∀ (l : List α) (a : α), a ∈ l.takeWhile p → p a = true
  | c :: rest, a, h => by
    rw [List.takeWhile_cons] at h
    by_cases hc : p c = true
    · rw [if_pos hc] at h
      rcases List.mem_cons.mp h with rfl | h
      · exact hc
      · exact mem_takeWhile p rest a h
    · rw [if_neg hc] at h
      cases h

/-- `takeWhile` is the identity when the predicate holds everywhere. -/
theorem takeWhile_all {α : Type} (p : α → Bool) :
    ∀ l : List α, (∀ a ∈ l, p a = true) → l.takeWhile p = l
  | [], _ => rfl
  | c :: rest, h => by
    rw [List.takeWhile_cons, if_pos (h c (List.mem_cons_self c rest)),
      takeWhile_all p rest (fun a ha => h a (List.mem_cons_of_mem c ha))]

/-- A colon-free string contains no scheme separator. -/
theorem dropThroughScheme_no_colon (l : List Char) (h : ':' ∉ l) :
    dropThroughScheme l = none := by
  induction l with
  | nil => rfl
  | cons c rest ih =>
    have hc : c ≠ ':' := fun hh => h (hh ▸ List.mem_cons_self c rest)
    have hrest : ':' ∉ rest := fun hh => h (List.mem_cons_of_mem c hh)
    rw [dropThroughScheme.eq_def]
    split
    next heq =>
      injection heq with h1 _
      exact absurd h1 hc
    next x rest2 heq =>
      injection heq with _ h2
      subst h2
      exact ih hrest
    next heq => rfl

/-- A normalized host contains no colon: the port strip removes every one and
lowercasing cannot create one. -/
theorem colon_not_mem_normalizeHost (l : List Char) : ':' ∉ normalizeHost l := by
  simp only [normalizeHost]
  intro hmem
  obtain ⟨c, hc, hlc⟩ := List.mem_map.mp hmem
  have hcc : c = ':' := toLower_eq_colon hlc
  subst hcc
  have := mem_takeWhile _ _ _ hc
  simp at this

/-- Lowercasing is absorbed by host normalization. -/
theorem map_toLower_normalizeHost (l : List Char) :
    (normalizeHost l).map Char.toLower = normalizeHost l := by
  simp only [normalizeHost]
  rw [List.map_map]
  exact List.map_congr_left fun a _ => by simp [Function.comp, toLower_idem]

/-- Host normalization is idempotent. -/
theorem normalizeHost_idem (l : List Char) :
    normalizeHost (normalizeHost l) = normalizeHost l := by
  have h1 : dropThroughScheme (normalizeHost l) = none :=
    dropThroughScheme_no_colon _ (colon_not_mem_normalizeHost l)
  have h2 : (normalizeHost l).takeWhile (fun c => c != ':') = normalizeHost l :=
    takeWhile_all _ _ (fun a ha => by
      have hne : a ≠ ':' := fun hh => colon_not_mem_normalizeHost l (hh ▸ ha)
      simpa using hne)
  conv_lhs => rw [normalizeHost, h1]
  show ((normalizeHost l).takeWhile (fun c => c != ':')).map Char.toLower = normalizeHost l
  rw [h2, map_toLower_normalizeHost]

/-- The head of a split is the longest separator-free prefix. -/
theorem splitOnChar_head (sep : Char) :
    ∀ l : List Char, ∃ ps, splitOnChar sep l = (l.takeWhile (fun c => c != sep)) :: ps
  | [] => ⟨[], rfl⟩
  | c :: rest => by
    by_cases hc : c = sep
    · subst hc
      refine ⟨splitOnChar c rest, ?_⟩
      rw [splitOnChar_cons_sep, List.takeWhile_cons]
      simp
    · obtain ⟨ps, hps⟩ := splitOnChar_head sep rest
      refine ⟨ps, ?_⟩
      conv_lhs => rw [splitOnChar]
      rw [if_neg hc, hps, List.takeWhile_cons, if_pos (by simpa using hc)]

/-- Trimming one trailing dot does not change the longest dot-free prefix. -/
theorem takeWhile_trimTrailingDot (l : List Char) :
    (trimTrailingDot l).takeWhile (fun c => c != '.') =
      l.takeWhile (fun c => c != '.') := by
  unfold trimTrailingDot
  split
  next hsuf =>
    obtain ⟨q, hq⟩ := List.isSuffixOf_iff_suffix.mp hsuf
    subst hq
    rw [show (q ++ ['.']).length - 1 = q.length by simp, List.take_left]
    rw [List.takeWhile_append]
    split
    next hlen =>
      rw [(List.takeWhile_prefix _).eq_of_length hlen]
      simp
    next hlen => rfl
  next hsuf => rfl

/-- `extractSlug` on an already-normalized host: require the normalized base
domain as a suffix and take the longest dot-free prefix of the remaining text
(`splitOnChar` head and the trailing-dot trim collapse to a `takeWhile`). -/
theorem extractSlug_normalized (host base : List Char) :
    extractSlug (normalizeHost host) base =
      if (normalizeHost base).isSuffixOf (normalizeHost host) then
        (if (((normalizeHost host).take ((normalizeHost host).length -
              (normalizeHost base).length)).takeWhile (fun c => c != '.')).isEmpty
         then []
         else ((normalizeHost host).take ((normalizeHost host).length -
              (normalizeHost base).length)).takeWhile (fun c => c != '.'))
      else [] := by
  unfold extractSlug
  rw [normalizeHost_idem]
  by_cases hsuf : ((normalizeHost base).isSuffixOf (normalizeHost host)) = true
  · rw [if_pos hsuf, if_pos hsuf]
    dsimp only
    obtain ⟨ps, hps⟩ := splitOnChar_head '.'
      (trimTrailingDot ((normalizeHost host).take
        ((normalizeHost host).length - (normalizeHost base).length)))
    rw [hps, takeWhile_trimTrailingDot]
  · rw [if_neg hsuf, if_neg hsuf]

/-- C5: the host resolver agrees, for every store state and every host string,
with the resolution procedure the specification describes: normalize (strip
scheme, strip port, lowercase); an exact `TenantDomain` match fails when
unverified and resolves to the owning tenant when verified; otherwise, when the
normalized host ends with the configured base domain, the leftmost dot-separated
label of the remaining prefix is looked up as `Tenant.slug`; otherwise the
result is not-found. -/
theorem c5_resolver_matches_spec (st : ResolverState) (host : List Char) :
    classifyResolve (ResolveTenant st host) = resolveTenantSpec st host := by
  unfold ResolveTenant resolveTenantSpec
  cases hdom : domainGetByDomain st.domains (normalizeHost host) with
  | some d =>
    cases hver : d.verifiedAt with
    | none => simp [hdom, hver, classifyResolve]
    | some v =>
      cases hten : tenantGetByID st.tenants d.tenantID with
      | some t => simp [hdom, hver, hten, classifyResolve]
      | none =>
        simp only [hdom, hver, hten]
        decide
  | none =>
    simp only [hdom, extractSlug_normalized]
    by_cases hsuf : ((normalizeHost st.baseDomain).isSuffixOf (normalizeHost host)) = true
    · rw [if_pos hsuf, if_pos hsuf]
      by_cases hlab : ((((normalizeHost host).take ((normalizeHost host).length -
          (normalizeHost st.baseDomain).length)).takeWhile (fun c => c != '.')).isEmpty) = true
      · rw [if_pos hlab, if_pos hlab,
          if_pos (show (List.isEmpty ([] : List Char)) = true from rfl)]
        simp only [classifyResolve]
        rw [if_neg ?_]
        intro h
        have h0 : ('t' : Char) = 'd' := congrArg (fun l => l.headD ' ') h
        exact absurd h0 (by decide)
      · rw [if_neg hlab, if_neg hlab, if_neg hlab]
        cases hslug : tenantGetBySlug st.tenants
            (((normalizeHost host).take ((normalizeHost host).length -
              (normalizeHost st.baseDomain).length)).takeWhile (fun c => c != '.')) with
        | some t => simp [hslug, classifyResolve]
        | none =>
          simp only [hslug]
          decide
    · rw [if_neg hsuf, if_neg hsuf,
        if_pos (show (List.isEmpty ([] : List Char)) = true from rfl)]
      simp only [classifyResolve]
      rw [if_neg ?_]
      intro h
      have h0 : ('t' : Char) = 'd' := congrArg (fun l => l.headD ' ') h
      exact absurd h0 (by decide)

end Locky
